import Mathlib

/-!
Verification of the record-synchronization and resolution core of
skeeterdns (src/server.ts): the in-memory record store, the MQTT
message handler (Sync Bridge) and the DNS request handler (Responder).

The embedding models:

* the JS `Map<string, DnsAnswer>` named `records` as an association list
  with `Map.get` / `Map.set` / `Map.delete` semantics;
* the `dns2` answer objects pushed by the handlers as a structure with
  the fields the source writes (`name`, `type`, `class` — renamed
  `rclass`, a keyword in Lean — `ttl`, and the per-type field
  `address` or `domain`);
* the JS string methods `startsWith`, `endsWith` and `substring(n)` as
  operations on the character sequence of the string (`jsStartsWith`,
  `jsEndsWith`, `jsSubstringFrom`);
* the outcome of `message.toString()` + `JSON.parse` + `recordSchema.parse`
  as a three-way sum `RawMessage`: the empty byte sequence, a non-empty
  payload on which parsing or schema validation throws, or a successfully
  decoded payload `{ type, value, ttl? }`;
* `handleDnsRequest` as a function returning the list of responses passed
  to `sendResponse`, in order; the JS destructuring
  `const [question] = request.questions` followed by `question.name`
  throws on an empty question list before any response is sent, which the
  model renders as the empty response list.
-/

namespace SkeeterDNS

/-- JS `s.startsWith(pre)`: `pre` is a prefix of the character sequence. -/
def jsStartsWith (s pre : String) : Bool :=
  pre.data.isPrefixOf s.data

/-- JS `s.endsWith(post)`: `post` is a suffix of the character sequence,
byte-for-byte (no domain-label-boundary check). -/
def jsEndsWith (s post : String) : Bool :=
  post.data.isSuffixOf s.data

/-- JS `s.substring(n)`: drop the first `n` characters. -/
def jsSubstringFrom (s : String) (n : Nat) : String :=
  String.mk (s.data.drop n)

/-- The record-type tag of the mutation schema (`recordSchema.type`). -/
inductive RecordType
  | A
  | CNAME
  | TXT
deriving DecidableEq

/-- `dns2` numeric code `Packet.TYPE.A`. -/
def PacketTYPE_A : Nat := 1

/-- `dns2` numeric code `Packet.TYPE.CNAME`. -/
def PacketTYPE_CNAME : Nat := 5

/-- `dns2` numeric code `Packet.TYPE.TXT`. -/
def PacketTYPE_TXT : Nat := 16

/-- `dns2` numeric code `Packet.CLASS.IN`. -/
def PacketCLASS_IN : Nat := 1

/-- A `dns2` answer object as the source constructs them: CNAME records
set `domain`, fallback A answers set `address`. `rclass` embeds the
source field `class` (a Lean keyword). -/
structure DnsAnswer where
  name : String
  type : Nat
  rclass : Nat
  ttl : Nat
  address : Option String := none
  domain : Option String := none
deriving DecidableEq

/-- A successfully decoded mutation payload: the source type `DnsRecord`,
i.e. `z.infer<typeof recordSchema>` with
`{ type: A|CNAME|TXT, value: string (min 1), ttl?: positive int }`.
The schema constraints (`value` non-empty, `ttl` positive) are side
conditions stated where a claim needs them. -/
structure DnsRecord where
  type : RecordType
  value : String
  ttl : Option Nat := none
deriving DecidableEq

/-- The observable outcome of `message.toString()` followed by
`JSON.parse` + `recordSchema.parse` on a delivered MQTT payload:
`empty` is the empty byte sequence (`messageString === ''`),
`invalid` is a non-empty payload on which `JSON.parse` or
`recordSchema.parse` throws, `valid payload` is a successful decode. -/
inductive RawMessage
  | empty
  | invalid
  | valid (payload : DnsRecord)
deriving DecidableEq

/-- The `config.dns` section (the fields the core reads). -/
structure DnsConfig where
  domain : String
  ttl : Nat
  fallbackDomains : List String
  fallbackAddress : String
deriving DecidableEq

/-- The `config.mqtt` section (the field the core reads). -/
structure MqttConfig where
  topicPrefix : String
deriving DecidableEq

/-- The configuration object handed to `startServer` (the parts the
record-sync and resolution core reads). -/
structure Config where
  dns : DnsConfig
  mqtt : MqttConfig
deriving DecidableEq

/-- The record store `records : Map<string, DnsAnswer>`, as an
association list with unique-key Map semantics. -/
abbrev RecordStore := List (String × DnsAnswer)

/-- JS `records.get(k)`: the value at the first (only) entry with key `k`. -/
def storeGet (s : RecordStore) (k : String) : Option DnsAnswer :=
  match s with
  | [] => none
  | p :: rest => if p.1 = k then some p.2 else storeGet rest k

/-- JS `records.set(k, v)`: replace the value at `k` in place, or append
a fresh entry. -/
def storeSet (s : RecordStore) (k : String) (v : DnsAnswer) : RecordStore :=
  match s with
  | [] => [(k, v)]
  | p :: rest => if p.1 = k then (k, v) :: rest else p :: storeSet rest k v

/-- JS `records.delete(k)`: remove the entry with key `k` when present. -/
def storeDelete (s : RecordStore) (k : String) : RecordStore :=
  match s with
  | [] => []
  | p :: rest => if p.1 = k then storeDelete rest k else p :: storeDelete rest k

/-- `getSubdomainFromTopic` from src/server.ts: strip `baseTopic + "/"`
from the front of `topic`, or return `null`. -/
def getSubdomainFromTopic (baseTopic topic : String) : Option String :=
  if jsStartsWith topic (baseTopic ++ "/") then
    some (jsSubstringFrom topic (baseTopic ++ "/").length)
  else
    none

/-- The subscribed topic base:
`` mqttTopic = `${config.mqtt.topicPrefix}/${config.dns.domain}` ``. -/
def mqttTopic (config : Config) : String :=
  config.mqtt.topicPrefix ++ "/" ++ config.dns.domain

/-- `` fqdn = `${subdomain}.${config.dns.domain}` ``. -/
def fqdnOf (config : Config) (subdomain : String) : String :=
  subdomain ++ "." ++ config.dns.domain

/-- The answer object the message handler stores for a CNAME payload:
`{ name: fqdn, type: Packet.TYPE.CNAME, class: Packet.CLASS.IN,
   ttl: payload.ttl ?? config.dns.ttl, domain: payload.value }`. -/
def cnameAnswer (config : Config) (fqdn : String) (payload : DnsRecord) : DnsAnswer :=
  { name := fqdn
    type := PacketTYPE_CNAME
    rclass := PacketCLASS_IN
    ttl := payload.ttl.getD config.dns.ttl
    domain := some payload.value
    address := none }

/-- The effect of the `mqttClient.on('message')` handler on the record
store, for a delivered `(topic, message)`. Mirrors the source: derive the
subdomain (the JS guard `if (!subdomain) return` ignores both `null` and
the empty string), tombstone on the empty payload, ignore a payload that
fails decoding, and store a record only when `payload.type === 'CNAME'`. -/
def onMessage (config : Config) (records : RecordStore) (topic : String)
    (message : RawMessage) : RecordStore :=
  match getSubdomainFromTopic (mqttTopic config) topic with
  | none => records
  | some subdomain =>
    if subdomain = "" then records
    else
      let fqdn := fqdnOf config subdomain
      match message with
      | RawMessage.empty => storeDelete records fqdn
      | RawMessage.invalid => records
      | RawMessage.valid payload =>
        if payload.type = RecordType.CNAME then
          storeSet records fqdn (cnameAnswer config fqdn payload)
        else
          records

/-- One DNS question (the part the handler reads: its `name`). -/
structure DnsQuestion where
  name : String
deriving DecidableEq

/-- An inbound DNS request (the part the handler reads: `questions`). -/
structure DnsRequest where
  questions : List DnsQuestion
deriving DecidableEq

/-- A response as the handler builds it: `Packet.createResponseFromRequest`
starts with an empty `answers` array and the handler pushes onto it. -/
structure DnsResponse where
  answers : List DnsAnswer
deriving DecidableEq

/-- The synthetic fallback answer the handler pushes:
`{ name, type: Packet.TYPE.A, class: Packet.CLASS.IN,
   ttl: config.dns.ttl, address: fallbackAddress }`. -/
def fallbackAnswer (config : Config) (name : String) : DnsAnswer :=
  { name := name
    type := PacketTYPE_A
    rclass := PacketCLASS_IN
    ttl := config.dns.ttl
    address := some config.dns.fallbackAddress
    domain := none }

/-- `handleDnsRequest` from src/server.ts, as the list of responses passed
to `sendResponse`, in order. On an empty question list the JS
destructuring yields `undefined` and `question.name` throws before any
send, hence the empty list; otherwise only the first question is
resolved: exact store match, else first matching fallback suffix, else an
empty answer section — and exactly one response is sent. -/
def handleDnsRequest (config : Config) (records : RecordStore)
    (request : DnsRequest) : List DnsResponse :=
  match request.questions with
  | [] => []
  | question :: _ =>
    let name := question.name
    match storeGet records name with
    | some record => [{ answers := [record] }]
    | none =>
      match config.dns.fallbackDomains.find? (fun suffix => jsEndsWith name suffix) with
      | some _ => [{ answers := [fallbackAnswer config name] }]
      | none => [{ answers := [] }]

/-- The §8 scenario configuration: domain `lan.test`, default TTL 300,
fallback suffix `lan.test` mapped to `192.0.2.1` (topic prefix
`skeeterdns`). -/
def exampleConfig : Config :=
  { dns := { domain := "lan.test"
             ttl := 300
             fallbackDomains := ["lan.test"]
             fallbackAddress := "192.0.2.1" }
    mqtt := { topicPrefix := "skeeterdns" } }

/-- A configuration whose fallback list holds the suffix `ample.com`,
exhibiting that suffix matching has no domain-label-boundary check. -/
def boundaryConfig : Config :=
  { dns := { domain := "test"
             ttl := 120
             fallbackDomains := ["ample.com"]
             fallbackAddress := "10.0.0.9" }
    mqtt := { topicPrefix := "dns" } }

/-- The stored answer for subdomain `printer` after the §8 CNAME mutation. -/
def printerRecord : DnsAnswer :=
  cnameAnswer exampleConfig "printer.lan.test"
    { type := RecordType.CNAME, value := "printer.internal" }

/-- A store holding exactly the §8 `printer` record. -/
def exampleStoreWithPrinter : RecordStore :=
  [("printer.lan.test", printerRecord)]

theorem storeGet_storeSet_self (s : RecordStore) (k : String) (v : DnsAnswer) :
    storeGet (storeSet s k v) k = some v := by
  induction s with
  | nil => simp [storeSet, storeGet]
  | cons p rest ih =>
    by_cases h : p.1 = k
    · simp [storeSet, h, storeGet]
    · simp [storeSet, h, storeGet, ih]

theorem storeGet_storeSet_ne (s : RecordStore) (k : String) (v : DnsAnswer)
    (k' : String) (h : k' ≠ k) :
    storeGet (storeSet s k v) k' = storeGet s k' := by
  have hkk : ¬ (k = k') := fun hh => h hh.symm
  induction s with
  | nil => simp [storeSet, storeGet, hkk]
  | cons p rest ih =>
    by_cases hp : p.1 = k
    · have hp' : ¬ (p.1 = k') := by rw [hp]; exact hkk
      simp [storeSet, hp, storeGet, hkk, hp']
    · simp [storeSet, hp, storeGet, ih]

theorem storeGet_storeDelete_self (s : RecordStore) (k : String) :
    storeGet (storeDelete s k) k = none := by
  induction s with
  | nil => simp [storeDelete, storeGet]
  | cons p rest ih =>
    by_cases h : p.1 = k
    · simp [storeDelete, h, ih]
    · simp [storeDelete, h, storeGet, ih]

theorem storeGet_storeDelete_ne (s : RecordStore) (k : String)
    (k' : String) (h : k' ≠ k) :
    storeGet (storeDelete s k) k' = storeGet s k' := by
  have hkk : ¬ (k = k') := fun hh => h hh.symm
  induction s with
  | nil => simp [storeDelete]
  | cons p rest ih =>
    by_cases hp : p.1 = k
    · simp [storeDelete, hp, storeGet, hkk, ih]
    · simp [storeDelete, hp, storeGet, ih]

theorem storeDelete_of_absent (s : RecordStore) (k : String)
    (h : storeGet s k = none) : storeDelete s k = s := by
  induction s with
  | nil => simp [storeDelete]
  | cons p rest ih =>
    by_cases hp : p.1 = k
    · simp [storeGet, hp] at h
    · simp [storeGet, hp] at h
      simp [storeDelete, hp, ih h]

/-- C3: a delivered message whose non-empty payload fails JSON decoding or
schema validation leaves the record store completely unchanged — the store
is literally the same, so every fqdn maps to the same record (or absence)
after the message is processed as before it. -/
theorem invalid_payload_leaves_store_unchanged
    (config : Config) (records : RecordStore) (topic : String) :
    onMessage config records topic RawMessage.invalid = records ∧
    ∀ fqdn, storeGet (onMessage config records topic RawMessage.invalid) fqdn
      = storeGet records fqdn := by
  have h1 : onMessage config records topic RawMessage.invalid = records := by
    unfold onMessage
    cases getSubdomainFromTopic (mqttTopic config) topic with
    | none => rfl
    | some subdomain => by_cases h : subdomain = "" <;> simp [h]
  exact ⟨h1, fun fqdn => by rw [h1]⟩

/-- C9: a delivered message whose topic does not begin with the expected
prefix `topicPrefix/domain/` is ignored entirely: `getSubdomainFromTopic`
yields `null` and the record store is left unchanged, whatever the
payload. -/
theorem foreign_topic_ignored
    (config : Config) (records : RecordStore) (topic : String)
    (message : RawMessage)
    (h : jsStartsWith topic (mqttTopic config ++ "/") = false) :
    getSubdomainFromTopic (mqttTopic config) topic = none ∧
    onMessage config records topic message = records := by
  have hsub : getSubdomainFromTopic (mqttTopic config) topic = none := by
    unfold getSubdomainFromTopic
    simp [h]
  exact ⟨hsub, by unfold onMessage; rw [hsub]⟩

/-- C9 witness: a concrete foreign topic is ignored. -/
theorem foreign_topic_ignored_witness :
    getSubdomainFromTopic (mqttTopic exampleConfig) "other/topic" = none ∧
    onMessage exampleConfig exampleStoreWithPrinter "other/topic" RawMessage.invalid
      = exampleStoreWithPrinter :=
  foreign_topic_ignored exampleConfig exampleStoreWithPrinter "other/topic"
    RawMessage.invalid (by decide)

/-- C10: a successfully decoded payload of type `A` or `TXT` leaves the
record store completely unchanged — only `CNAME` payloads ever result in
a `set`, even though all three types pass schema validation. -/
theorem non_cname_payload_leaves_store_unchanged
    (config : Config) (records : RecordStore) (topic : String)
    (payload : DnsRecord)
    (h : payload.type = RecordType.A ∨ payload.type = RecordType.TXT) :
    onMessage config records topic (RawMessage.valid payload) = records := by
  have hne : payload.type ≠ RecordType.CNAME := by
    rcases h with h | h <;> simp [h]
  unfold onMessage
  cases getSubdomainFromTopic (mqttTopic config) topic with
  | none => rfl
  | some subdomain => by_cases hs : subdomain = "" <;> simp [hs, hne]

/-- C10 witness: a concrete valid A payload on a well-formed topic leaves
a concrete store unchanged. -/
theorem non_cname_payload_leaves_store_unchanged_witness :
    onMessage exampleConfig exampleStoreWithPrinter "skeeterdns/lan.test/scanner"
      (RawMessage.valid { type := RecordType.A, value := "192.0.2.7" })
      = exampleStoreWithPrinter :=
  non_cname_payload_leaves_store_unchanged exampleConfig exampleStoreWithPrinter
    "skeeterdns/lan.test/scanner"
    { type := RecordType.A, value := "192.0.2.7" } (Or.inl rfl)

/-- C5: a delivered message with the empty byte sequence as payload, on a
topic that derives a (non-empty) subdomain, deletes the derived fqdn from
the record store: afterwards the store has no entry for that fqdn, every
other key is unchanged, and when the key was absent the store is left
exactly as it was (idempotent on an absent key). -/
theorem empty_payload_tombstones
    (config : Config) (records : RecordStore) (topic : String)
    (subdomain : String)
    (hsub : getSubdomainFromTopic (mqttTopic config) topic = some subdomain)
    (hne : subdomain ≠ "") :
    onMessage config records topic RawMessage.empty
      = storeDelete records (fqdnOf config subdomain) ∧
    storeGet (onMessage config records topic RawMessage.empty)
      (fqdnOf config subdomain) = none ∧
    (∀ k, k ≠ fqdnOf config subdomain →
      storeGet (onMessage config records topic RawMessage.empty) k
        = storeGet records k) ∧
    (storeGet records (fqdnOf config subdomain) = none →
      onMessage config records topic RawMessage.empty = records) := by
  have h1 : onMessage config records topic RawMessage.empty
      = storeDelete records (fqdnOf config subdomain) := by
    unfold onMessage
    rw [hsub]
    simp [hne]
  refine ⟨h1, ?_, ?_, ?_⟩
  · rw [h1]
    exact storeGet_storeDelete_self records (fqdnOf config subdomain)
  · intro k hk
    rw [h1]
    exact storeGet_storeDelete_ne records (fqdnOf config subdomain) k hk
  · intro habs
    rw [h1]
    exact storeDelete_of_absent records (fqdnOf config subdomain) habs

/-- C5 witness: a concrete tombstone on the `printer` topic. -/
theorem empty_payload_tombstones_witness :
    onMessage exampleConfig exampleStoreWithPrinter "skeeterdns/lan.test/printer"
      RawMessage.empty
      = storeDelete exampleStoreWithPrinter (fqdnOf exampleConfig "printer") ∧
    storeGet (onMessage exampleConfig exampleStoreWithPrinter
      "skeeterdns/lan.test/printer" RawMessage.empty)
      (fqdnOf exampleConfig "printer") = none ∧
    (∀ k, k ≠ fqdnOf exampleConfig "printer" →
      storeGet (onMessage exampleConfig exampleStoreWithPrinter
        "skeeterdns/lan.test/printer" RawMessage.empty) k
        = storeGet exampleStoreWithPrinter k) ∧
    (storeGet exampleStoreWithPrinter (fqdnOf exampleConfig "printer") = none →
      onMessage exampleConfig exampleStoreWithPrinter
        "skeeterdns/lan.test/printer" RawMessage.empty
        = exampleStoreWithPrinter) :=
  empty_payload_tombstones exampleConfig exampleStoreWithPrinter
    "skeeterdns/lan.test/printer" "printer" (by decide) (by decide)

/-- Shared helper: on a well-formed topic with a non-empty subdomain, a
decoded CNAME payload stores `cnameAnswer` at the derived fqdn. -/
theorem onMessage_valid_cname
    (config : Config) (records : RecordStore) (topic : String)
    (subdomain : String) (payload : DnsRecord)
    (hsub : getSubdomainFromTopic (mqttTopic config) topic = some subdomain)
    (hne : subdomain ≠ "") (hc : payload.type = RecordType.CNAME) :
    onMessage config records topic (RawMessage.valid payload)
      = storeSet records (fqdnOf config subdomain)
          (cnameAnswer config (fqdnOf config subdomain) payload) := by
  unfold onMessage
  rw [hsub]
  simp [hne, hc]

/-- C1 counterexample: a schema-valid payload of type `A` (non-empty value,
no ttl), delivered on a well-formed topic, leaves the store empty and puts
no record at the derived fqdn — refuting the claim that the bridge puts a
DomainRecord for all three record types. -/
theorem valid_a_payload_not_put :
    onMessage exampleConfig [] "skeeterdns/lan.test/printer"
      (RawMessage.valid { type := RecordType.A, value := "192.0.2.7" }) = [] ∧
    storeGet (onMessage exampleConfig [] "skeeterdns/lan.test/printer"
      (RawMessage.valid { type := RecordType.A, value := "192.0.2.7" }))
      "printer.lan.test" = none := by
  exact ⟨by decide, by decide⟩

/-- C1 (amended): on a well-formed topic with a non-empty subdomain, a
successfully decoded payload is put only when its type is CNAME: the store
then maps the derived fqdn to the record with
`ttl = payload.ttl ?? config.dns.ttl`, fully replacing any prior record at
that fqdn and leaving every other key unchanged; decoded payloads of type
A or TXT leave the store unchanged. -/
theorem valid_payload_put_only_cname
    (config : Config) (records : RecordStore) (topic : String)
    (subdomain : String) (payload : DnsRecord)
    (hsub : getSubdomainFromTopic (mqttTopic config) topic = some subdomain)
    (hne : subdomain ≠ "") :
    (payload.type = RecordType.CNAME →
      onMessage config records topic (RawMessage.valid payload)
        = storeSet records (fqdnOf config subdomain)
            (cnameAnswer config (fqdnOf config subdomain) payload) ∧
      storeGet (onMessage config records topic (RawMessage.valid payload))
        (fqdnOf config subdomain)
        = some (cnameAnswer config (fqdnOf config subdomain) payload) ∧
      (∀ k, k ≠ fqdnOf config subdomain →
        storeGet (onMessage config records topic (RawMessage.valid payload)) k
          = storeGet records k)) ∧
    (payload.type ≠ RecordType.CNAME →
      onMessage config records topic (RawMessage.valid payload) = records) := by
  constructor
  · intro hc
    have h1 := onMessage_valid_cname config records topic subdomain payload hsub hne hc
    refine ⟨h1, ?_, ?_⟩
    · rw [h1]
      exact storeGet_storeSet_self records (fqdnOf config subdomain)
        (cnameAnswer config (fqdnOf config subdomain) payload)
    · intro k hk
      rw [h1]
      exact storeGet_storeSet_ne records (fqdnOf config subdomain)
        (cnameAnswer config (fqdnOf config subdomain) payload) k hk
  · intro hc
    unfold onMessage
    rw [hsub]
    simp [hne, hc]

/-- C1 witness: a concrete CNAME payload with ttl 60 replaces the prior
`printer` record wholesale. -/
theorem valid_payload_put_only_cname_witness :
    onMessage exampleConfig exampleStoreWithPrinter "skeeterdns/lan.test/printer"
      (RawMessage.valid
        { type := RecordType.CNAME, value := "printer2.internal", ttl := some 60 })
      = storeSet exampleStoreWithPrinter (fqdnOf exampleConfig "printer")
          (cnameAnswer exampleConfig (fqdnOf exampleConfig "printer")
            { type := RecordType.CNAME, value := "printer2.internal", ttl := some 60 }) ∧
    storeGet (onMessage exampleConfig exampleStoreWithPrinter
      "skeeterdns/lan.test/printer"
      (RawMessage.valid
        { type := RecordType.CNAME, value := "printer2.internal", ttl := some 60 }))
      (fqdnOf exampleConfig "printer")
      = some (cnameAnswer exampleConfig (fqdnOf exampleConfig "printer")
          { type := RecordType.CNAME, value := "printer2.internal", ttl := some 60 }) ∧
    (∀ k, k ≠ fqdnOf exampleConfig "printer" →
      storeGet (onMessage exampleConfig exampleStoreWithPrinter
        "skeeterdns/lan.test/printer"
        (RawMessage.valid
          { type := RecordType.CNAME, value := "printer2.internal", ttl := some 60 })) k
        = storeGet exampleStoreWithPrinter k) :=
  (valid_payload_put_only_cname exampleConfig exampleStoreWithPrinter
    "skeeterdns/lan.test/printer" "printer"
    { type := RecordType.CNAME, value := "printer2.internal", ttl := some 60 }
    (by decide) (by decide)).1 rfl

/-- C6: for every applied mutation (a decoded CNAME payload on a
well-formed topic), the stored record's TTL is
`payload.ttl ?? config.dns.ttl` — the configured default when the payload
has no ttl field, exactly `t` when the payload carries `ttl: t` (so 60 for
`ttl: 60`) — and an exact-match query for the fqdn returns that stored
record, with that TTL, as the single answer. -/
theorem applied_mutation_ttl_resolution
    (config : Config) (records : RecordStore) (topic : String)
    (subdomain : String) (payload : DnsRecord)
    (hsub : getSubdomainFromTopic (mqttTopic config) topic = some subdomain)
    (hne : subdomain ≠ "") (hc : payload.type = RecordType.CNAME) :
    ∃ r, storeGet (onMessage config records topic (RawMessage.valid payload))
        (fqdnOf config subdomain) = some r ∧
      r.ttl = payload.ttl.getD config.dns.ttl ∧
      (payload.ttl = none → r.ttl = config.dns.ttl) ∧
      (∀ t, payload.ttl = some t → r.ttl = t) ∧
      handleDnsRequest config
        (onMessage config records topic (RawMessage.valid payload))
        { questions := [{ name := fqdnOf config subdomain }] }
        = [{ answers := [r] }] := by
  have h1 := onMessage_valid_cname config records topic subdomain payload hsub hne hc
  refine ⟨cnameAnswer config (fqdnOf config subdomain) payload, ?_, rfl, ?_, ?_, ?_⟩
  · rw [h1]
    exact storeGet_storeSet_self records (fqdnOf config subdomain)
      (cnameAnswer config (fqdnOf config subdomain) payload)
  · intro hn
    simp [cnameAnswer, hn]
  · intro t ht
    simp [cnameAnswer, ht]
  · have hget : storeGet (onMessage config records topic (RawMessage.valid payload))
        (fqdnOf config subdomain)
        = some (cnameAnswer config (fqdnOf config subdomain) payload) := by
      rw [h1]
      exact storeGet_storeSet_self records (fqdnOf config subdomain)
        (cnameAnswer config (fqdnOf config subdomain) payload)
    unfold handleDnsRequest
    simp [hget]

/-- C6 witness: a concrete CNAME mutation with `ttl: 60` is stored and
answered with TTL exactly 60. -/
theorem applied_mutation_ttl_resolution_witness :
    ∃ r, storeGet (onMessage exampleConfig [] "skeeterdns/lan.test/printer"
        (RawMessage.valid
          { type := RecordType.CNAME, value := "printer.internal", ttl := some 60 }))
        (fqdnOf exampleConfig "printer") = some r ∧
      r.ttl = (some 60).getD exampleConfig.dns.ttl ∧
      ((some 60 : Option Nat) = none → r.ttl = exampleConfig.dns.ttl) ∧
      (∀ t, (some 60 : Option Nat) = some t → r.ttl = t) ∧
      handleDnsRequest exampleConfig
        (onMessage exampleConfig [] "skeeterdns/lan.test/printer"
          (RawMessage.valid
            { type := RecordType.CNAME, value := "printer.internal", ttl := some 60 }))
        { questions := [{ name := fqdnOf exampleConfig "printer" }] }
        = [{ answers := [r] }] :=
  applied_mutation_ttl_resolution exampleConfig [] "skeeterdns/lan.test/printer"
    "printer" { type := RecordType.CNAME, value := "printer.internal", ttl := some 60 }
    (by decide) (by decide) rfl

/-- C2: for every inbound request with at least one question, only the
first question's name is resolved: an exact store match yields exactly
that stored record as the single answer; otherwise, when some configured
fallback suffix matches the name, the single answer is the synthetic A
record with the configured fallback address and default TTL; otherwise the
single emitted response has zero answers. -/
theorem dns_responder_resolution
    (config : Config) (records : RecordStore) (request : DnsRequest)
    (question : DnsQuestion) (rest : List DnsQuestion)
    (hq : request.questions = question :: rest) :
    (∀ record, storeGet records question.name = some record →
      handleDnsRequest config records request = [{ answers := [record] }]) ∧
    (storeGet records question.name = none →
      (∃ suffix ∈ config.dns.fallbackDomains,
        jsEndsWith question.name suffix = true) →
      handleDnsRequest config records request
        = [{ answers := [fallbackAnswer config question.name] }]) ∧
    (storeGet records question.name = none →
      (∀ suffix ∈ config.dns.fallbackDomains,
        jsEndsWith question.name suffix = false) →
      handleDnsRequest config records request = [{ answers := [] }]) := by
  refine ⟨?_, ?_, ?_⟩
  · intro record hr
    unfold handleDnsRequest
    rw [hq]
    simp [hr]
  · intro hmiss hex
    have hfind : (config.dns.fallbackDomains.find?
        (fun suffix => jsEndsWith question.name suffix)).isSome := by
      rw [List.find?_isSome]
      obtain ⟨s, hs, hends⟩ := hex
      exact ⟨s, hs, hends⟩
    obtain ⟨s, hfs⟩ := Option.isSome_iff_exists.mp hfind
    unfold handleDnsRequest
    rw [hq]
    simp [hmiss, hfs]
  · intro hmiss hall
    have hfind : config.dns.fallbackDomains.find?
        (fun suffix => jsEndsWith question.name suffix) = none := by
      rw [List.find?_eq_none]
      intro x hx
      simp [hall x hx]
    unfold handleDnsRequest
    rw [hq]
    simp [hmiss, hfind]

/-- C2 witness: a concrete exact match returns the stored `printer`
record as the single answer. -/
theorem dns_responder_resolution_witness :
    handleDnsRequest exampleConfig exampleStoreWithPrinter
      { questions := [{ name := "printer.lan.test" }] }
      = [{ answers := [printerRecord] }] :=
  (dns_responder_resolution exampleConfig exampleStoreWithPrinter
    { questions := [{ name := "printer.lan.test" }] }
    { name := "printer.lan.test" } [] rfl).1 printerRecord (by decide)

/-- Shared helper: `find?` returns the first element of the list
satisfying the predicate. -/
theorem find?_first_match {α : Type} (p : α → Bool) (before : List α)
    (s : α) (after : List α)
    (hs : p s = true) (hbefore : ∀ x ∈ before, p x = false) :
    (before ++ s :: after).find? p = some s := by
  induction before with
  | nil =>
    rw [List.nil_append]
    exact List.find?_cons_of_pos after hs
  | cons b bs ih =>
    have hb : p b = false := hbefore b (List.mem_cons_self b bs)
    rw [List.cons_append, List.find?_cons_of_neg]
    · exact ih (fun x hx => hbefore x (List.mem_cons_of_mem b hx))
    · simp [hb]

/-- C7: for a queried (first-question) name with no exact record, the name
is served by fallback iff some configured suffix is a raw
character-for-character suffix of the name (no domain-label-boundary
check), and the rule the handler selects is the first matching suffix in
declaration order of the fallback list. -/
theorem fallback_suffix_first_match
    (config : Config) (records : RecordStore) (request : DnsRequest)
    (question : DnsQuestion) (rest : List DnsQuestion)
    (hq : request.questions = question :: rest)
    (hmiss : storeGet records question.name = none) :
    (handleDnsRequest config records request
        = [{ answers := [fallbackAnswer config question.name] }]
      ↔ ∃ suffix ∈ config.dns.fallbackDomains,
          jsEndsWith question.name suffix = true) ∧
    (∀ before s after, config.dns.fallbackDomains = before ++ s :: after →
      jsEndsWith question.name s = true →
      (∀ s2 ∈ before, jsEndsWith question.name s2 = false) →
      config.dns.fallbackDomains.find?
        (fun suffix => jsEndsWith question.name suffix) = some s) := by
  constructor
  · constructor
    · intro hserved
      by_contra hnone
      push_neg at hnone
      have hall : ∀ suffix ∈ config.dns.fallbackDomains,
          jsEndsWith question.name suffix = false := by
        intro x hx
        have := hnone x hx
        simpa using this
      have hempty := (dns_responder_resolution config records request
        question rest hq).2.2 hmiss hall
      rw [hempty] at hserved
      have : ([] : List DnsAnswer)
          = [fallbackAnswer config question.name] := by
        injection hserved with h1 _
        injection h1
      simp at this
    · intro hex
      exact (dns_responder_resolution config records request
        question rest hq).2.1 hmiss hex
  · intro before s after heq hs hbefore
    rw [heq]
    exact find?_first_match (fun suffix => jsEndsWith question.name suffix)
      before s after hs hbefore

/-- C7 witness: raw suffix matching has no label-boundary check — with
fallback suffix `ample.com`, the name `example.com` is served by
fallback. -/
theorem fallback_suffix_first_match_witness :
    handleDnsRequest boundaryConfig []
      { questions := [{ name := "example.com" }] }
      = [{ answers := [fallbackAnswer boundaryConfig "example.com"] }] :=
  ((fallback_suffix_first_match boundaryConfig []
      { questions := [{ name := "example.com" }] }
      { name := "example.com" } [] rfl (by decide)).1).mpr
    ⟨"ample.com", by decide, by decide⟩

/-- C8: for every request with at least one question, the handler passes a
response to `sendResponse` exactly once, on every control path (exact
match, fallback match, and no match). -/
theorem send_response_exactly_once
    (config : Config) (records : RecordStore) (request : DnsRequest)
    (h : request.questions ≠ []) :
    (handleDnsRequest config records request).length = 1 := by
  obtain ⟨q, rest, hq⟩ := List.exists_cons_of_ne_nil h
  unfold handleDnsRequest
  rw [hq]
  cases hget : storeGet records q.name with
  | some record => simp [hget]
  | none =>
    cases hfind : config.dns.fallbackDomains.find?
        (fun suffix => jsEndsWith q.name suffix) with
    | some s => simp [hget, hfind]
    | none => simp [hget, hfind]

/-- C8 witness: exactly one response on a concrete no-match request. -/
theorem send_response_exactly_once_witness :
    (handleDnsRequest boundaryConfig []
      { questions := [{ name := "nohit.elsewhere" }] }).length = 1 :=
  send_response_exactly_once boundaryConfig []
    { questions := [{ name := "nohit.elsewhere" }] } (by decide)

/-- The §8 scenario store after both mutations: the CNAME mutation for
subdomain `printer`, then the empty (tombstone) payload on the same
topic. -/
def scenarioStoreAfterTombstone : RecordStore :=
  onMessage exampleConfig
    (onMessage exampleConfig [] "skeeterdns/lan.test/printer"
      (RawMessage.valid { type := RecordType.CNAME, value := "printer.internal" }))
    "skeeterdns/lan.test/printer" RawMessage.empty

/-- C4 counterexample: after the §8 tombstone, the query for
`printer.lan.test` does NOT return a response with zero answers — the
configured fallback suffix `lan.test` still matches the name. -/
theorem scenario_query_after_tombstone_not_empty :
    handleDnsRequest exampleConfig scenarioStoreAfterTombstone
      { questions := [{ name := "printer.lan.test" }] }
      ≠ [{ answers := [] }] := by decide

/-- C4 (amended): in the §8 scenario, after the tombstone the query for
`printer.lan.test` returns exactly one synthetic A answer carrying the
configured fallback address `192.0.2.1` and the default TTL 300, because
the fallback suffix `lan.test` matches the queried name. -/
theorem scenario_query_after_tombstone_fallback :
    handleDnsRequest exampleConfig scenarioStoreAfterTombstone
      { questions := [{ name := "printer.lan.test" }] }
      = [{ answers := [fallbackAnswer exampleConfig "printer.lan.test"] }] := by
  decide

end SkeeterDNS
